import Mathlib

/-!
Verification of the token-sequence evaluation module
(`dante_tokenizer/evaluate/evaluate.py`): an LCS-based scorer deriving
true-positive / false-positive / false-negative counts per sentence, and
dataset-level precision / recall / F-score aggregation.

Tokens are opaque equality-comparable values; the helper definitions are
generic and the top-level statements instantiate them at `String`.
-/

/-- Cell `L[i][j]` of the dynamic-programming table filled by
`longest_common_token_sequence`: `L[i][0] = L[0][j] = 0`; for `i, j ≥ 1`,
`L[i][j] = L[i-1][j-1] + 1` when `left[i-1] == right[j-1]`, and
`max L[i-1][j] L[i][j-1]` otherwise.  The imperative fill order is
irrelevant because each cell depends only on earlier cells, so the table
is embedded as this recurrence. -/
def lcsCell {α : Type*} [DecidableEq α] (left right : List α) : Nat → Nat → Nat
  | 0, _ => 0
  | _ + 1, 0 => 0
  | i + 1, j + 1 =>
    if left[i]? = right[j]? then lcsCell left right i j + 1
    else max (lcsCell left right i (j + 1)) (lcsCell left right (i + 1) j)
termination_by i j => (i, j)

/-- `longest_common_token_sequence` from `evaluate.py`: builds the
`(n_left+1) × (n_right+1)` table by the recurrence of `lcsCell` and returns
`L[n_left][n_right]`. -/
def longest_common_token_sequence {α : Type*} [DecidableEq α]
    (left right : List α) : Nat :=
  lcsCell left right left.length right.length

/-- Functional form of the same recurrence, consuming both lists from the
front; `lcsCell left right i j` agrees with it on the reversed `i`- and
`j`-prefixes (proved below). -/
def lcsAux {α : Type*} [DecidableEq α] : List α → List α → Nat
  | [], _ => 0
  | _ :: _, [] => 0
  | a :: as, b :: bs =>
    if a = b then lcsAux as bs + 1
    else max (lcsAux as (b :: bs)) (lcsAux (a :: as) bs)

theorem lcsAux_nil_right {α : Type*} [DecidableEq α] (l : List α) :
    lcsAux l [] = 0 := by
  cases l <;> simp [lcsAux]

/-- Some common subsequence attains the value of `lcsAux`. -/
theorem lcsAux_exists {α : Type*} [DecidableEq α] (l r : List α) :
    ∃ s : List α, s.Sublist l ∧ s.Sublist r ∧ s.length = lcsAux l r := by
  induction l generalizing r with
  | nil => exact ⟨[], List.nil_sublist _, List.nil_sublist _, by simp [lcsAux]⟩
  | cons a as ihl =>
    induction r with
    | nil => exact ⟨[], List.nil_sublist _, List.nil_sublist _, by simp [lcsAux]⟩
    | cons b bs ihr =>
      by_cases hab : a = b
      · obtain ⟨s, hsl, hsr, hlen⟩ := ihl bs
        subst hab
        refine ⟨a :: s, List.cons_sublist_cons.mpr hsl,
          List.cons_sublist_cons.mpr hsr, ?_⟩
        simp [lcsAux, hlen]
      · rcases le_total (lcsAux as (b :: bs)) (lcsAux (a :: as) bs) with hle | hle
        · obtain ⟨s, hsl, hsr, hlen⟩ := ihr
          refine ⟨s, hsl, hsr.cons b, ?_⟩
          rw [hlen]
          simp [lcsAux, hab, Nat.max_eq_right hle]
        · obtain ⟨s, hsl, hsr, hlen⟩ := ihl (b :: bs)
          refine ⟨s, hsl.cons a, hsr, ?_⟩
          rw [hlen]
          simp [lcsAux, hab, Nat.max_eq_left hle]

/-- Every common subsequence is bounded by `lcsAux`. -/
theorem lcsAux_isMax {α : Type*} [DecidableEq α] (l r s : List α)
    (hsl : s.Sublist l) (hsr : s.Sublist r) : s.length ≤ lcsAux l r := by
  induction l generalizing r s with
  | nil =>
    rw [List.sublist_nil.mp hsl]
    exact Nat.zero_le _
  | cons a as ihl =>
    induction r generalizing s with
    | nil =>
      rw [List.sublist_nil.mp hsr]
      exact Nat.zero_le _
    | cons b bs ihr =>
      by_cases hab : a = b
      · subst hab
        rw [show lcsAux (a :: as) (a :: bs) = lcsAux as bs + 1 by simp [lcsAux]]
        match s, hsl, hsr with
        | [], _, _ => exact Nat.zero_le _
        | c :: s, hsl, hsr =>
          by_cases hca : c = a
          · subst hca
            have h1 : s.Sublist as := List.cons_sublist_cons.mp hsl
            have h2 : s.Sublist bs := List.cons_sublist_cons.mp hsr
            simpa using Nat.add_le_add_right (ihl bs s h1 h2) 1
          · have h1 : (c :: s).Sublist as := by
              rcases List.sublist_cons_iff.mp hsl with h | ⟨u, hu, _⟩
              · exact h
              · injection hu with h1 _
                exact absurd h1 hca
            have h2 : (c :: s).Sublist bs := by
              rcases List.sublist_cons_iff.mp hsr with h | ⟨u, hu, _⟩
              · exact h
              · injection hu with h1 _
                exact absurd h1 hca
            exact le_trans (ihl bs (c :: s) h1 h2) (Nat.le_succ _)
      · rw [show lcsAux (a :: as) (b :: bs)
            = max (lcsAux as (b :: bs)) (lcsAux (a :: as) bs) by simp [lcsAux, hab]]
        match s, hsl, hsr with
        | [], _, _ => exact Nat.zero_le _
        | c :: s, hsl, hsr =>
          by_cases hca : c = a
          · have hcb : c ≠ b := by rw [hca]; exact hab
            have h2 : (c :: s).Sublist bs := by
              rcases List.sublist_cons_iff.mp hsr with h | ⟨u, hu, _⟩
              · exact h
              · injection hu with h1 _
                exact absurd h1 hcb
            exact le_trans (ihr (c :: s) hsl h2) (le_max_right _ _)
          · have h1 : (c :: s).Sublist as := by
              rcases List.sublist_cons_iff.mp hsl with h | ⟨u, hu, _⟩
              · exact h
              · injection hu with h1 _
                exact absurd h1 hca
            exact le_trans (ihl (b :: bs) (c :: s) h1 hsr) (le_max_left _ _)

/-- The table cell at `(i, j)` is the functional LCS of the reversed
`i`- and `j`-prefixes. -/
theorem lcsCell_eq_lcsAux {α : Type*} [DecidableEq α] (left right : List α) :
    ∀ i j, i ≤ left.length → j ≤ right.length →
      lcsCell left right i j = lcsAux (left.take i).reverse (right.take j).reverse := by
  intro i
  induction i with
  | zero =>
    intro j _ _
    simp [lcsCell, lcsAux]
  | succ i ihi =>
    intro j
    induction j with
    | zero =>
      intro _ _
      simp [lcsCell, lcsAux_nil_right]
    | succ j ihj =>
      intro hi hj
      have hi' : i < left.length := Nat.lt_of_succ_le hi
      have hj' : j < right.length := Nat.lt_of_succ_le hj
      have hL : (left.take (i + 1)).reverse = left[i] :: (left.take i).reverse := by
        rw [List.take_succ, List.getElem?_eq_getElem hi']
        simp
      have hR : (right.take (j + 1)).reverse = right[j] :: (right.take j).reverse := by
        rw [List.take_succ, List.getElem?_eq_getElem hj']
        simp
      rw [hL, hR]
      rw [show lcsCell left right (i + 1) (j + 1)
          = if left[i]? = right[j]? then lcsCell left right i j + 1
            else max (lcsCell left right i (j + 1)) (lcsCell left right (i + 1) j) from
        by rw [lcsCell]]
      rw [List.getElem?_eq_getElem hi', List.getElem?_eq_getElem hj']
      by_cases hab : left[i] = right[j]
      · rw [if_pos (by rw [hab]), ihi j (le_of_lt hi') (le_of_lt hj')]
        simp [lcsAux, hab]
      · rw [if_neg (by simpa using hab),
          ihi (j + 1) (le_of_lt hi') hj, ihj hi (le_of_lt hj'), hR, hL]
        simp [lcsAux, hab]

/-- `longest_common_token_sequence` agrees with the functional LCS on the
reversed inputs. -/
theorem lcs_eq_lcsAux {α : Type*} [DecidableEq α] (left right : List α) :
    longest_common_token_sequence left right = lcsAux left.reverse right.reverse := by
  have h := lcsCell_eq_lcsAux left right left.length right.length le_rfl le_rfl
  simpa [longest_common_token_sequence, List.take_length] using h

/-- Some common subsequence of the two inputs attains the returned value. -/
theorem lcs_exists {α : Type*} [DecidableEq α] (left right : List α) :
    ∃ s : List α, s.Sublist left ∧ s.Sublist right ∧
      s.length = longest_common_token_sequence left right := by
  obtain ⟨s, h1, h2, h3⟩ := lcsAux_exists left.reverse right.reverse
  refine ⟨s.reverse, ?_, ?_, ?_⟩
  · simpa using h1.reverse
  · simpa using h2.reverse
  · rw [lcs_eq_lcsAux, ← h3, List.length_reverse]

/-- Every common subsequence of the two inputs has length at most the
returned value. -/
theorem lcs_isMax {α : Type*} [DecidableEq α] (left right s : List α)
    (h1 : s.Sublist left) (h2 : s.Sublist right) :
    s.length ≤ longest_common_token_sequence left right := by
  rw [lcs_eq_lcsAux]
  have h := lcsAux_isMax left.reverse right.reverse s.reverse h1.reverse h2.reverse
  simpa using h

/-- The returned value never exceeds either input length. -/
theorem lcs_le_min {α : Type*} [DecidableEq α] (left right : List α) :
    longest_common_token_sequence left right ≤ min left.length right.length := by
  obtain ⟨s, h1, h2, h3⟩ := lcs_exists left right
  rw [← h3]
  exact le_min h1.length_le h2.length_le

/-- `evaluate_sentence` from `evaluate.py`: `true_positives` is the LCS length
of the predicted and true token lists, `false_positives` the remaining
predicted tokens, `false_negatives` the remaining true tokens; counts are
Python integers, embedded as `Int`. -/
def evaluate_sentence (pred_tokens true_tokens : List String) : Int × Int × Int :=
  let true_positives : Int := longest_common_token_sequence pred_tokens true_tokens
  (true_positives, (pred_tokens.length : Int) - true_positives,
    (true_tokens.length : Int) - true_positives)

/-- Claim C1: `longest_common_token_sequence` returns the length of the longest
common subsequence of its two inputs under exact token equality
(order-preserving, not necessarily contiguous): some common subsequence attains
the returned value, no common subsequence is longer, and empty inputs yield 0
(no input is an error: the function is total). -/
theorem lcs_computes_longest_common_subsequence (left right : List String) :
    (∃ s : List String, s.Sublist left ∧ s.Sublist right ∧
        s.length = longest_common_token_sequence left right) ∧
    (∀ s : List String, s.Sublist left → s.Sublist right →
        s.length ≤ longest_common_token_sequence left right) ∧
    longest_common_token_sequence left ([] : List String) = 0 ∧
    longest_common_token_sequence ([] : List String) right = 0 := by
  refine ⟨lcs_exists left right, fun s h1 h2 => lcs_isMax left right s h1 h2, ?_, ?_⟩
  · obtain ⟨s, _, h2, h3⟩ := lcs_exists left ([] : List String)
    rw [← h3, List.sublist_nil.mp h2]
    rfl
  · obtain ⟨s, h1, _, h3⟩ := lcs_exists ([] : List String) right
    rw [← h3, List.sublist_nil.mp h1]
    rfl

/-- Claim C7: the LCS length is symmetric in its two arguments. -/
theorem lcs_symm (A B : List String) :
    longest_common_token_sequence A B = longest_common_token_sequence B A := by
  apply le_antisymm
  · obtain ⟨s, h1, h2, h3⟩ := lcs_exists A B
    rw [← h3]
    exact lcs_isMax B A s h2 h1
  · obtain ⟨s, h1, h2, h3⟩ := lcs_exists B A
    rw [← h3]
    exact lcs_isMax A B s h2 h1

/-- Claim C8: the LCS of a sequence with itself is its full length, and the
LCS of any sequence with the empty sequence is 0. -/
theorem lcs_self_eq_length_and_lcs_nil (A : List String) :
    longest_common_token_sequence A A = A.length ∧
    longest_common_token_sequence A ([] : List String) = 0 := by
  constructor
  · apply le_antisymm
    · obtain ⟨s, h1, _, h3⟩ := lcs_exists A A
      rw [← h3]
      exact h1.length_le
    · exact lcs_isMax A A A (List.Sublist.refl A) (List.Sublist.refl A)
  · obtain ⟨s, _, h2, h3⟩ := lcs_exists A ([] : List String)
    rw [← h3, List.sublist_nil.mp h2]
    rfl

/-- Claim C2: `evaluate_sentence` returns exactly
`(tp, len(pred) - tp, len(true) - tp)` with `tp` the LCS length, and hence
`tp + fp = len(pred)` and `tp + fn = len(true)` for every sentence pair. -/
theorem evaluate_sentence_eq_lcs_counts (p t : List String) :
    evaluate_sentence p t =
      ((longest_common_token_sequence p t : Int),
        (p.length : Int) - (longest_common_token_sequence p t : Int),
        (t.length : Int) - (longest_common_token_sequence p t : Int)) ∧
    (evaluate_sentence p t).1 + (evaluate_sentence p t).2.1 = (p.length : Int) ∧
    (evaluate_sentence p t).1 + (evaluate_sentence p t).2.2 = (t.length : Int) := by
  refine ⟨rfl, ?_, ?_⟩ <;> simp [evaluate_sentence]

/-- Claim C6: the triple returned by `evaluate_sentence` satisfies
`tp ≤ min (len pred) (len true)`, `fp ≥ 0` and `fn ≥ 0`. -/
theorem evaluate_sentence_bounds (p t : List String) :
    (evaluate_sentence p t).1 ≤ min (p.length : Int) (t.length : Int) ∧
    0 ≤ (evaluate_sentence p t).2.1 ∧ 0 ≤ (evaluate_sentence p t).2.2 := by
  have h := lcs_le_min p t
  have h1 : longest_common_token_sequence p t ≤ p.length := le_trans h (min_le_left _ _)
  have h2 : longest_common_token_sequence p t ≤ t.length := le_trans h (min_le_right _ _)
  refine ⟨le_min ?_ ?_, ?_, ?_⟩ <;> simp [evaluate_sentence] <;> omega

/-- The smoothing constant `1e-9` of `evaluate_dataset`, as an exact rational
(Python float arithmetic is modelled by exact rational arithmetic). -/
def eps : ℚ := 1 / 1000000000

/-- Per-sentence precision appended by the loop of `evaluate_dataset`:
`tp / (tp + fp + 1e-9)`. -/
def precScore (pred_tokens true_tokens : List String) : ℚ :=
  let e := evaluate_sentence pred_tokens true_tokens
  (e.1 : ℚ) / ((e.1 : ℚ) + (e.2.1 : ℚ) + eps)

/-- Per-sentence recall appended by the loop of `evaluate_dataset`:
`tp / (tp + fn + 1e-9)`. -/
def recScore (pred_tokens true_tokens : List String) : ℚ :=
  let e := evaluate_sentence pred_tokens true_tokens
  (e.1 : ℚ) / ((e.1 : ℚ) + (e.2.2 : ℚ) + eps)

/-- Per-sentence F-score appended by the loop of `evaluate_dataset`, computed
from the two scores just appended: `2·p·r / (p + r + 1e-9)`. -/
def fScore (pred_tokens true_tokens : List String) : ℚ :=
  2 * precScore pred_tokens true_tokens * recScore pred_tokens true_tokens /
    (precScore pred_tokens true_tokens + recScore pred_tokens true_tokens + eps)

/-- The state mutated by the `for i in range(n_sents)` loop of
`evaluate_dataset`: the three count accumulators and the four growing lists,
in source order: `true_positives`, `false_positives`, `false_negatives`,
`incorrect_sentences_ids`, `precision_scores`, `recall_scores`, `f_scores`. -/
structure LoopState where
  true_positives : Int
  false_positives : Int
  false_negatives : Int
  incorrect_sentences_ids : List Nat
  precision_scores : List ℚ
  recall_scores : List ℚ
  f_scores : List ℚ
  deriving DecidableEq

/-- The loop state before the first iteration. -/
def initState : LoopState := ⟨0, 0, 0, [], [], [], []⟩

/-- One iteration of the loop body of `evaluate_dataset` at index `i`
(Python's `pred_tokens[i]` is embedded as `getD i []`; the loop only runs `i`
over valid indices). -/
def evalStep (pred_tokens true_tokens : List (List String))
    (s : LoopState) (i : Nat) : LoopState :=
  let e := evaluate_sentence (pred_tokens.getD i []) (true_tokens.getD i [])
  ⟨s.true_positives + e.1,
    s.false_positives + e.2.1,
    s.false_negatives + e.2.2,
    if 0 < e.2.1 ∨ 0 < e.2.2 then s.incorrect_sentences_ids ++ [i]
    else s.incorrect_sentences_ids,
    s.precision_scores ++ [precScore (pred_tokens.getD i []) (true_tokens.getD i [])],
    s.recall_scores ++ [recScore (pred_tokens.getD i []) (true_tokens.getD i [])],
    s.f_scores ++ [fScore (pred_tokens.getD i []) (true_tokens.getD i [])]⟩

/-- `np.mean` over a list of scores: sum divided by length (the empty list is
mapped to 0 by rational division by zero). -/
def npMean (xs : List ℚ) : ℚ := xs.sum / (xs.length : ℚ)

/-- The population variance underlying `np.std` (default `ddof = 0`): the mean
of the squared deviations from the mean. -/
def npVar (xs : List ℚ) : ℚ :=
  (xs.map (fun x => (x - npMean xs) ^ 2)).sum / (xs.length : ℚ)

/-- `np.std` over a list of scores: the population standard deviation, the
square root of `npVar`. -/
noncomputable def npStd (xs : List ℚ) : ℝ := Real.sqrt (npVar xs)

/-- The `additional_metrics` dictionary returned by `evaluate_dataset` when
`complete_metrics` is set. -/
structure AdditionalMetrics where
  true_positives : Int
  false_positives : Int
  false_negatives : Int
  incorrect_sentences_ids : List Nat
  deriving DecidableEq

/-- The value returned by `evaluate_dataset`: a `(mean, std)` pair for each of
precision, recall and F-score, plus the additional metrics exactly when
`complete_metrics` was set (Python returns a 4-tuple instead of a 3-tuple in
that case; the optional fourth component models this). -/
structure EvalOutput where
  precision : ℚ × ℝ
  «recall» : ℚ × ℝ
  f_score : ℚ × ℝ
  additional_metrics : Option AdditionalMetrics

/-- `evaluate_dataset` from `evaluate.py`.  The
`assert len(pred_tokens) == len(true_tokens)` is embedded as returning `none`
when the assertion fails; otherwise the loop runs over `range n_sents` and the
three `(mean, std)` pairs (plus, optionally, the additional metrics) are
returned. -/
noncomputable def evaluate_dataset (pred_tokens true_tokens : List (List String))
    (complete_metrics : Bool) : Option EvalOutput :=
  if pred_tokens.length = true_tokens.length then
    let st := (List.range pred_tokens.length).foldl
      (evalStep pred_tokens true_tokens) initState
    some ⟨(npMean st.precision_scores, npStd st.precision_scores),
      (npMean st.recall_scores, npStd st.recall_scores),
      (npMean st.f_scores, npStd st.f_scores),
      if complete_metrics then
        some ⟨st.true_positives, st.false_positives, st.false_negatives,
          st.incorrect_sentences_ids⟩
      else none⟩
  else none

/-- Closed form of the state of the `evaluate_dataset` loop after `n`
iterations: each accumulator is the sum, filter or map of the per-sentence
quantities over the index range. -/
theorem foldl_evalStep_spec (p t : List (List String)) (n : Nat) :
    (List.range n).foldl (evalStep p t) initState =
      ⟨((List.range n).map
          (fun i => (evaluate_sentence (p.getD i []) (t.getD i [])).1)).sum,
        ((List.range n).map
          (fun i => (evaluate_sentence (p.getD i []) (t.getD i [])).2.1)).sum,
        ((List.range n).map
          (fun i => (evaluate_sentence (p.getD i []) (t.getD i [])).2.2)).sum,
        (List.range n).filter (fun i =>
          decide (0 < (evaluate_sentence (p.getD i []) (t.getD i [])).2.1 ∨
            0 < (evaluate_sentence (p.getD i []) (t.getD i [])).2.2)),
        (List.range n).map (fun i => precScore (p.getD i []) (t.getD i [])),
        (List.range n).map (fun i => recScore (p.getD i []) (t.getD i [])),
        (List.range n).map (fun i => fScore (p.getD i []) (t.getD i []))⟩ := by
  induction n with
  | zero => rfl
  | succ n ih =>
    rw [List.range_succ, List.foldl_append, ih]
    simp only [List.foldl_cons, List.foldl_nil, List.map_append, List.sum_append,
      List.filter_append, List.map_cons, List.map_nil, List.sum_cons, List.sum_nil,
      List.filter_cons, List.filter_nil, add_zero, decide_eq_true_eq, evalStep,
      LoopState.mk.injEq]
    simp only [true_and, and_true]
    split <;> simp

theorem lcs_nil_nil :
    longest_common_token_sequence ([] : List String) [] = 0 := by
  simp [lcs_eq_lcsAux, lcsAux]

theorem evaluate_sentence_nil_nil : evaluate_sentence [] [] = (0, 0, 0) := by
  simp [evaluate_sentence, lcs_nil_nil]

theorem getD_replicate_nil (n i : Nat) :
    (List.replicate n ([] : List String)).getD i [] = [] := by
  rw [List.getD_eq_getElem?_getD, List.getElem?_replicate]
  split <;> rfl

theorem precScore_nil_nil : precScore [] [] = 0 := by
  simp [precScore, evaluate_sentence_nil_nil]

theorem recScore_nil_nil : recScore [] [] = 0 := by
  simp [recScore, evaluate_sentence_nil_nil]

theorem fScore_nil_nil : fScore [] [] = 0 := by
  simp [fScore, precScore_nil_nil, recScore_nil_nil]

theorem npMean_zeros (n : Nat) : npMean (List.replicate n (0 : ℚ)) = 0 := by
  rw [npMean, List.sum_replicate, smul_zero, zero_div]

theorem npStd_zeros (n : Nat) : npStd (List.replicate n (0 : ℚ)) = 0 := by
  have h : npVar (List.replicate n (0 : ℚ)) = 0 := by
    simp [npVar, npMean_zeros]
  simp [npStd, h]

/-- Claim C3: `evaluate_dataset` raises (returns `none`) exactly when the
predicted and true sentence lists have different lengths; every equal-length
input completes, and a dataset of empty token sequences yields the zero-valued
epsilon-smoothed metrics `(0, 0)` for precision, recall and F-score. -/
theorem evaluate_dataset_error_iff_length_mismatch
    (p t : List (List String)) (c : Bool) :
    (evaluate_dataset p t c = none ↔ p.length ≠ t.length) ∧
    (∀ n : Nat, ∃ out,
      evaluate_dataset (List.replicate n []) (List.replicate n []) c = some out ∧
      out.precision = (0, 0) ∧ out.«recall» = (0, 0) ∧ out.f_score = (0, 0)) := by
  constructor
  · unfold evaluate_dataset
    by_cases h : p.length = t.length
    · simp [h]
    · simp [h]
  · intro n
    unfold evaluate_dataset
    rw [if_pos rfl]
    simp only [foldl_evalStep_spec, List.length_replicate]
    refine ⟨_, rfl, ?_, ?_, ?_⟩ <;>
      simp [getD_replicate_nil, precScore_nil_nil, recScore_nil_nil,
        fScore_nil_nil, npMean_zeros, npStd_zeros]

/-- Claim C4: on every dataset of equal-length predicted/true sentence lists,
`evaluate_dataset` computes the per-sentence epsilon-smoothed precision, recall
and F-score of each sentence pair and returns, for each of the three metrics,
the pair of the mean and the (population) standard deviation over all
sentences. -/
theorem evaluate_dataset_returns_mean_std (p t : List (List String)) (c : Bool)
    (h : p.length = t.length) :
    ∃ out, evaluate_dataset p t c = some out ∧
      out.precision = (npMean ((List.range p.length).map
          (fun i => precScore (p.getD i []) (t.getD i []))),
        npStd ((List.range p.length).map
          (fun i => precScore (p.getD i []) (t.getD i [])))) ∧
      out.«recall» = (npMean ((List.range p.length).map
          (fun i => recScore (p.getD i []) (t.getD i []))),
        npStd ((List.range p.length).map
          (fun i => recScore (p.getD i []) (t.getD i [])))) ∧
      out.f_score = (npMean ((List.range p.length).map
          (fun i => fScore (p.getD i []) (t.getD i []))),
        npStd ((List.range p.length).map
          (fun i => fScore (p.getD i []) (t.getD i [])))) := by
  unfold evaluate_dataset
  rw [if_pos h]
  simp only [foldl_evalStep_spec]
  exact ⟨_, rfl, rfl, rfl, rfl⟩

/-- Claim C5: on every dataset of equal-length predicted/true sentence lists,
`evaluate_dataset` with `complete_metrics` set additionally returns the sums of
the per-sentence TP, FP and FN counts over the whole dataset together with the
indices of exactly those sentences with `fp > 0` or `fn > 0`; with the flag
unset, only the three `(mean, std)` pairs are returned. -/
theorem evaluate_dataset_complete_metrics_spec (p t : List (List String))
    (h : p.length = t.length) :
    (∃ out, evaluate_dataset p t true = some out ∧
      out.additional_metrics = some
        ⟨((List.range p.length).map
            (fun i => (evaluate_sentence (p.getD i []) (t.getD i [])).1)).sum,
          ((List.range p.length).map
            (fun i => (evaluate_sentence (p.getD i []) (t.getD i [])).2.1)).sum,
          ((List.range p.length).map
            (fun i => (evaluate_sentence (p.getD i []) (t.getD i [])).2.2)).sum,
          (List.range p.length).filter (fun i =>
            decide (0 < (evaluate_sentence (p.getD i []) (t.getD i [])).2.1 ∨
              0 < (evaluate_sentence (p.getD i []) (t.getD i [])).2.2))⟩) ∧
    (∃ out, evaluate_dataset p t false = some out ∧
      out.additional_metrics = none) := by
  constructor <;>
    (unfold evaluate_dataset
     rw [if_pos h]
     simp only [foldl_evalStep_spec]
     exact ⟨_, rfl, rfl⟩)

/-- The three `(mean, std)` score pairs of an `evaluate_dataset` output. -/
def scoresOf (out : EvalOutput) : (ℚ × ℝ) × (ℚ × ℝ) × (ℚ × ℝ) :=
  (out.precision, out.«recall», out.f_score)

/-- Claim C9: the three `(mean, std)` score pairs returned by
`evaluate_dataset` do not depend on the `complete_metrics` flag; the flag only
adds the additional-metrics structure. -/
theorem evaluate_dataset_flag_preserves_scores (p t : List (List String)) :
    (evaluate_dataset p t true).map scoresOf
      = (evaluate_dataset p t false).map scoresOf := by
  unfold evaluate_dataset
  by_cases h : p.length = t.length
  · rw [if_pos h, if_pos h]
    rfl
  · rw [if_neg h, if_neg h]

/-- Claim C10: on every dataset of equal-length predicted/true sentence lists
of length `n`, the `incorrect_sentences_ids` returned with `complete_metrics`
set form a strictly increasing list of indices in `0 ≤ i < n`. -/
theorem evaluate_dataset_incorrect_ids_sorted (p t : List (List String))
    (h : p.length = t.length) :
    ∃ out, evaluate_dataset p t true = some out ∧
      ∃ am, out.additional_metrics = some am ∧
        List.Pairwise (· < ·) am.incorrect_sentences_ids ∧
        ∀ i ∈ am.incorrect_sentences_ids, i < p.length := by
  unfold evaluate_dataset
  rw [if_pos h]
  simp only [foldl_evalStep_spec]
  refine ⟨_, rfl, _, rfl, ?_, ?_⟩
  · exact List.Pairwise.filter _ (List.pairwise_lt_range _)
  · intro i hi
    exact List.mem_range.mp (List.mem_filter.mp hi).1

/-- A concrete one-sentence predicted dataset used to witness the
dataset-level theorems. -/
def demoPred : List (List String) := [["a"]]

/-- A concrete one-sentence true dataset used to witness the dataset-level
theorems. -/
def demoTrue : List (List String) := [["a"]]

/-- Witness for C4 at a concrete equal-length dataset. -/
theorem evaluate_dataset_returns_mean_std_witness :
    demoPred.length = demoTrue.length ∧
    (∃ out, evaluate_dataset demoPred demoTrue true = some out ∧
      out.precision = (npMean ((List.range demoPred.length).map
          (fun i => precScore (demoPred.getD i []) (demoTrue.getD i []))),
        npStd ((List.range demoPred.length).map
          (fun i => precScore (demoPred.getD i []) (demoTrue.getD i [])))) ∧
      out.«recall» = (npMean ((List.range demoPred.length).map
          (fun i => recScore (demoPred.getD i []) (demoTrue.getD i []))),
        npStd ((List.range demoPred.length).map
          (fun i => recScore (demoPred.getD i []) (demoTrue.getD i [])))) ∧
      out.f_score = (npMean ((List.range demoPred.length).map
          (fun i => fScore (demoPred.getD i []) (demoTrue.getD i []))),
        npStd ((List.range demoPred.length).map
          (fun i => fScore (demoPred.getD i []) (demoTrue.getD i []))))) :=
  ⟨rfl, evaluate_dataset_returns_mean_std demoPred demoTrue true rfl⟩

/-- Witness for C5 at a concrete equal-length dataset. -/
theorem evaluate_dataset_complete_metrics_spec_witness :
    demoPred.length = demoTrue.length ∧
    ((∃ out, evaluate_dataset demoPred demoTrue true = some out ∧
      out.additional_metrics = some
        ⟨((List.range demoPred.length).map
            (fun i => (evaluate_sentence (demoPred.getD i []) (demoTrue.getD i [])).1)).sum,
          ((List.range demoPred.length).map
            (fun i => (evaluate_sentence (demoPred.getD i []) (demoTrue.getD i [])).2.1)).sum,
          ((List.range demoPred.length).map
            (fun i => (evaluate_sentence (demoPred.getD i []) (demoTrue.getD i [])).2.2)).sum,
          (List.range demoPred.length).filter (fun i =>
            decide (0 < (evaluate_sentence (demoPred.getD i []) (demoTrue.getD i [])).2.1 ∨
              0 < (evaluate_sentence (demoPred.getD i []) (demoTrue.getD i [])).2.2))⟩) ∧
    (∃ out, evaluate_dataset demoPred demoTrue false = some out ∧
      out.additional_metrics = none)) :=
  ⟨rfl, evaluate_dataset_complete_metrics_spec demoPred demoTrue rfl⟩

/-- Witness for C10 at a concrete equal-length dataset. -/
theorem evaluate_dataset_incorrect_ids_sorted_witness :
    demoPred.length = demoTrue.length ∧
    (∃ out, evaluate_dataset demoPred demoTrue true = some out ∧
      ∃ am, out.additional_metrics = some am ∧
        List.Pairwise (· < ·) am.incorrect_sentences_ids ∧
        ∀ i ∈ am.incorrect_sentences_ids, i < demoPred.length) :=
  ⟨rfl, evaluate_dataset_incorrect_ids_sorted demoPred demoTrue rfl⟩
